import Mathlib

/-!
# Verification of the gcp-finops-sentinel rule-matching and target-resolution core

Shallow embedding of the decision logic of `src/rule_engine.py`,
`src/project_discovery.py`, `src/handler.py` and `src/config.py`.

Modelling conventions:
* Python numbers (costs, budgets, threshold values) are modelled as rationals `ℚ`;
  `round(x, 1)` is modelled as exact round-half-to-even at one decimal place.
* Python dicts with a fixed key schema are modelled as structures whose fields are
  `Option`-valued: `none` means the key is absent (or bound to `None`), `some v`
  means the key is present with value `v`.  Python truthiness of the relevant
  values (`None`, `""`, `[]`, an empty dict) is modelled explicitly where the
  source branches on it.
* The pattern matcher `RuleEngine._matches_pattern` builds a Python regex by
  `pattern.replace("*", ".*")` and matches it anchored (`^...$`).  The embedding
  models the fragment of Python regexes this can produce over patterns whose
  characters are either literals, `*`, or the metacharacter `.`; texts are
  assumed newline-free (billing-account and budget identifiers never contain
  newlines), so `.` matches any character and `$` means end of string.
* Label maps are association lists with distinct keys; `dict.get` is `List.lookup`.
-/

/-! ## Numeric model: Python `round(x, 1)` (round half to even) -/

/-- Round a rational to the nearest integer, ties to the even integer
(Python's built-in `round` semantics on exact values). -/
def roundHalfEven (q : ℚ) : ℤ :=
  let f : ℤ := ⌊q⌋
  let r : ℚ := q - f
  if r < 1/2 then f
  else if 1/2 < r then f + 1
  else if f % 2 = 0 then f else f + 1

/-- Python `round(x, 1)`: round to one decimal place, ties to even. -/
def pyRound1 (q : ℚ) : ℚ := (roundHalfEven (q * 10) : ℚ) / 10

/-! ## Data model (rule configuration and alert payload) -/

/-- One threshold condition dict: `{"operator": ..., "value": ...}`.
`none` fields model absent keys, read back through `dict.get` defaults. -/
structure ThresholdCond where
  operator : Option String
  value : Option ℚ
deriving DecidableEq, Repr

/-- Python truthiness of a threshold-condition dict (over the two-key schema):
the dict is truthy iff it is non-empty, i.e. at least one key is present. -/
def ThresholdCond.truthy (c : ThresholdCond) : Bool :=
  c.operator.isSome || c.value.isSome

/-- The value of `conditions["threshold_percent"]`: absent (or `None`), a single
condition dict, or a list of condition dicts. -/
inductive ThresholdSpec where
  | absent
  | single (c : ThresholdCond)
  | listed (cs : List ThresholdCond)
deriving DecidableEq, Repr

/-- Python truthiness of the `threshold_percent` value:
`None` is falsy, a dict is truthy iff non-empty, a list iff non-empty. -/
def ThresholdSpec.truthy : ThresholdSpec → Bool
  | .absent => false
  | .single c => c.truthy
  | .listed cs => !cs.isEmpty

/-- The normalisation at rule_engine.py:84-88: wrap a single condition
into a one-element list, keep a list as is. -/
def ThresholdSpec.toConds : ThresholdSpec → List ThresholdCond
  | .absent => []
  | .single c => [c]
  | .listed cs => cs

/-- A billing-account / budget-id filter: absent, an exact string, a list of
strings (membership), or a dict `\x7b"pattern": ...\x7d` (modelled by its
optional `pattern` entry). -/
inductive IdentityFilter where
  | absent
  | exact (s : String)
  | membership (l : List String)
  | patternD (pat : Option String)
deriving DecidableEq, Repr

/-- An action dict: its `type` key and the four targeting keys.
Action-specific payload fields (services, constraint, emails, ...) are not
consulted by the rule-matching / extraction / target-resolution logic and are
omitted from the model. -/
structure ActionSpec where
  type : Option String
  target_projects : Option (List String)
  target_folders : Option (List String)
  target_organization : Option String
  target_labels : Option (List (String × String))
deriving DecidableEq, Repr

/-- The `conditions` dict of a rule (missing keys modelled by the `absent`
constructors). -/
structure Conditions where
  threshold_percent : ThresholdSpec
  billing_account_filter : IdentityFilter
  budget_id_filter : IdentityFilter
deriving DecidableEq, Repr

/-- A rule: `name`, `conditions` (default `\x7b\x7d`), `actions` (default `[]`). -/
structure Rule where
  name : Option String
  conditions : Conditions
  actions : List ActionSpec
deriving DecidableEq, Repr

/-- The Pub/Sub message body fields read by the engine
(`budget_data.get("costAmount", 0)`, `budget_data.get("budgetAmount", 0)`). -/
structure BudgetData where
  costAmount : Option ℚ
  budgetAmount : Option ℚ
deriving DecidableEq, Repr

/-- The Pub/Sub message attributes read by the engine. -/
structure PubSubAttrs where
  billingAccountId : Option String
  budgetId : Option String
deriving DecidableEq, Repr

/-! ## Pattern matcher (`RuleEngine._matches_pattern`, rule_engine.py:141-144) -/

/-- Tokens of the regex fragment produced by `pattern.replace("*", ".*")`:
a literal character, `.` (any character), or `.*` (any substring). -/
inductive RTok where
  | lit (c : Char)
  | anyChar
  | anyStar
deriving DecidableEq, Repr

/-- `starMatch k cs` matches `.*` followed by a continuation `k`
against `cs`: some suffix of `cs` satisfies `k`. -/
def starMatch (k : List Char → Bool) : List Char → Bool
  | [] => k []
  | c :: cs => k (c :: cs) || starMatch k cs

/-- Anchored matching of a token list against a character list
(the semantics of `re.match("^" + r + "$", text)` for this fragment,
on newline-free texts). -/
def rmatch : List RTok → List Char → Bool
  | [], cs => cs.isEmpty
  | .lit a :: ps, cs =>
    match cs with
    | [] => false
    | c :: cs' => a = c && rmatch ps cs'
  | .anyChar :: ps, cs =>
    match cs with
    | [] => false
    | _ :: cs' => rmatch ps cs'
  | .anyStar :: ps, cs => starMatch (fun cs' => rmatch ps cs') cs

/-- Compile the *source pattern* as the code does: each `*` becomes `.*`;
`.` keeps its regex meaning (any character); every other modelled character is
a literal.  Faithful on patterns free of the remaining regex metacharacters. -/
def compilePat (s : List Char) : List RTok :=
  s.map fun c => if c = '*' then .anyStar else if c = '.' then .anyChar else .lit c

namespace RuleEngine

/-- `RuleEngine._matches_pattern(text, pattern)`:
`regex_pattern = pattern.replace("*", ".*")`, then anchored `re.match`. -/
def matches_pattern (text pattern : String) : Bool :=
  rmatch (compilePat pattern.data) text.data

/-- The body of the per-condition loop at rule_engine.py:90-109: a condition
fails the rule exactly when its operator's failure test fires.  `operator`
defaults to `">="`, `value` to `100`. -/
def cond_ok (cond : ThresholdCond) (threshold_percent : ℚ) : Bool :=
  let operator := cond.operator.getD ">="
  let value := cond.value.getD 100
  if operator = ">=" then !decide (threshold_percent < value)
  else if operator = ">" then !decide (threshold_percent ≤ value)
  else if operator = "==" then !decide (threshold_percent ≠ value)
  else if operator = "<" then !decide (value ≤ threshold_percent)
  else if operator = "<=" then !decide (value < threshold_percent)
  else if operator = "min" then !decide (threshold_percent < value)
  else if operator = "max" then !decide (value < threshold_percent)
  else true

/-- The threshold block at rule_engine.py:81-109: skipped when the
`threshold_percent` value is falsy, otherwise every condition in the
(normalised) list must pass. -/
def threshold_ok (tc : ThresholdSpec) (threshold_percent : ℚ) : Bool :=
  if tc.truthy then tc.toConds.all fun c => cond_ok c threshold_percent
  else true

/-- The two identity-filter blocks at rule_engine.py:111-137 (billing account
and budget id have identical treatment).  A falsy filter value (`None`, `""`,
`[]`, `\x7b\x7d`) skips the check; inside a pattern dict a falsy `pattern`
(`None` or `""`) also skips it. -/
def identity_ok (f : IdentityFilter) (x : String) : Bool :=
  match f with
  | .absent => true
  | .exact s => if s = "" then true else x == s
  | .membership l => if l.isEmpty then true else l.contains x
  | .patternD p =>
    match p with
    | none => true
    | some pat => if pat = "" then true else matches_pattern x pat

/-- `RuleEngine._matches_rule` (rule_engine.py:69-139). -/
def matches_rule (rule : Rule) (threshold_percent : ℚ)
    (billing_account_id budget_id : String) : Bool :=
  threshold_ok rule.conditions.threshold_percent threshold_percent
  && identity_ok rule.conditions.billing_account_filter billing_account_id
  && identity_ok rule.conditions.budget_id_filter budget_id

/-- The presence test at rule_engine.py:173-180: at least one targeting key
is present on the action dict (regardless of its value). -/
def has_targets (a : ActionSpec) : Bool :=
  a.target_projects.isSome || a.target_folders.isSome
  || a.target_organization.isSome || a.target_labels.isSome

/-- The loop of `RuleEngine._get_rule_actions` (rule_engine.py:163-191):
`send_mail` actions are appended unconditionally; any other action is appended
iff it has at least one targeting key, and is otherwise skipped (`continue`). -/
def get_rule_actions_loop : List ActionSpec → List ActionSpec
  | [] => []
  | a :: rest =>
    if a.type == some "send_mail" then a :: get_rule_actions_loop rest
    else if has_targets a then a :: get_rule_actions_loop rest
    else get_rule_actions_loop rest

/-- `RuleEngine._get_rule_actions` (rule_engine.py:146-193). -/
def get_rule_actions (rule : Rule) : List ActionSpec :=
  get_rule_actions_loop rule.actions

/-- The derived threshold percentage (rule_engine.py:41-45):
`round(cost/budget*100, 1)` when the budget amount is positive, else `0`. -/
def threshold_percent (budget_data : BudgetData) : ℚ :=
  let cost_amount := budget_data.costAmount.getD 0
  let budget_amount := budget_data.budgetAmount.getD 0
  if 0 < budget_amount then pyRound1 (cost_amount / budget_amount * 100) else 0

/-- `RuleEngine.evaluate` (rule_engine.py:24-67): accumulate, over the rules in
configuration order, the extracted actions of every matching rule. -/
def evaluate (rules : List Rule) (budget_data : BudgetData)
    (attributes : PubSubAttrs) : List ActionSpec :=
  let t := threshold_percent budget_data
  let billing_account_id := attributes.billingAccountId.getD "unknown"
  let budget_id := attributes.budgetId.getD "unknown"
  rules.foldl
    (fun actions rule =>
      if matches_rule rule t billing_account_id budget_id then
        actions ++ get_rule_actions rule
      else actions)
    []

end RuleEngine

/-! ## Project discovery (`ProjectDiscovery.find_projects_by_labels`,
project_discovery.py:33-153, non-dry-run path) -/

/-- A project object returned by the Resource Manager search API.
Proto messages always carry the `labels` and `display_name` attributes
(possibly empty), so the defensive `hasattr` checks in the source are always
true and are not modelled; `dict(project.labels) if project.labels else \x7b\x7d`
collapses to the association list itself (an empty map stays empty).
Label maps have distinct keys. -/
structure DiscoveredProject where
  name : String
  labels : List (String × String)
  display_name : String
deriving DecidableEq, Repr

namespace ProjectDiscovery

/-- The per-candidate check at project_discovery.py:109-111:
every requested label key must be present with a string-equal value
(`project_labels.get(key) == value` for all requested pairs). -/
def all_labels_match (label_filters : List (String × String))
    (p : DiscoveredProject) : Bool :=
  label_filters.all fun kv => p.labels.lookup kv.1 == some kv.2

/-- The record built for a kept candidate (project_discovery.py:114-121):
the project id is the last `/`-separated component of `project.name`. -/
def extract_project (p : DiscoveredProject) : String × String :=
  ((p.name.splitOn "/").getLastD "", p.display_name)

/-- The post-filter loop of `find_projects_by_labels`
(project_discovery.py:102-144): the API may return a superset (OR semantics
across label conditions), so candidates are re-checked locally and only those
matching every requested label are kept, in API order. -/
def find_projects_by_labels (label_filters : List (String × String)) :
    List DiscoveredProject → List (String × String)
  | [] => []
  | p :: rest =>
    if all_labels_match label_filters p then
      extract_project p :: find_projects_by_labels label_filters rest
    else find_projects_by_labels label_filters rest

end ProjectDiscovery

/-! ## Target resolution (`_resolve_action_targets`, handler.py:73-115) -/

namespace Handler

/-- A resolved target tuple `(resource_id, resource_type, display_name)`. -/
abbrev ResolvedTarget := String × String × Option String

/-- `_resolve_action_targets` (handler.py:73-115).  The discovery collaborator
is abstracted as a function from a label map and an organization id to a list
of `(project_id, display_name)` records (`display_name` read back with
`.get`, hence optional). -/
def resolve_action_targets
    (discover : List (String × String) → String → List (String × Option String))
    (action : ActionSpec) (organization_id : String) : List ResolvedTarget :=
  let targets : List ResolvedTarget := []
  let targets := targets ++
    (match action.target_projects with
     | none => []
     | some ps => ps.map fun project_id => (project_id, "project", none))
  let targets := targets ++
    (match action.target_folders with
     | none => []
     | some fs => fs.map fun folder_id => (folder_id, "folder", none))
  let targets := targets ++
    (match action.target_organization with
     | none => []
     | some org_id => [(org_id, "organization", none)])
  let targets := targets ++
    (match action.target_labels with
     | none => []
     | some label_filters =>
       (discover label_filters organization_id).map fun pi =>
         (pi.1, "project", pi.2))
  targets

/-- The explicit-project segment of the resolution (handler.py:89-91). -/
def project_targets (action : ActionSpec) : List ResolvedTarget :=
  match action.target_projects with
  | none => []
  | some ps => ps.map fun project_id => (project_id, "project", none)

/-- The explicit-folder segment of the resolution (handler.py:94-96). -/
def folder_targets (action : ActionSpec) : List ResolvedTarget :=
  match action.target_folders with
  | none => []
  | some fs => fs.map fun folder_id => (folder_id, "folder", none)

/-- The organization segment of the resolution (handler.py:99-101). -/
def organization_targets (action : ActionSpec) : List ResolvedTarget :=
  match action.target_organization with
  | none => []
  | some org_id => [(org_id, "organization", none)]

/-- The label-discovery segment of the resolution (handler.py:104-113). -/
def label_targets
    (discover : List (String × String) → String → List (String × Option String))
    (action : ActionSpec) (organization_id : String) : List ResolvedTarget :=
  match action.target_labels with
  | none => []
  | some label_filters =>
    (discover label_filters organization_id).map fun pi => (pi.1, "project", pi.2)

end Handler

/-! ## Configuration loading (`load_rules_config`, config.py:15-50) -/

/-- The parsed rules configuration object (`\x7b"rules": [...]\x7d`). -/
structure RulesConfig where
  rules : List Rule
deriving DecidableEq, Repr

namespace Config

/-- `load_rules_config` (config.py:15-50).  The JSON and YAML parsers are
abstracted as functions returning `none` exactly when parsing raises
(`json.JSONDecodeError` / `yaml.YAMLError`); the environment variable and the
config file are abstracted as optional strings (`none` = unset / file not
found).  `file_is_yaml` records whether the config path ends in
`.yml`/`.yaml`.  An empty `RULES_CONFIG` string is falsy and skips the
environment branch, as in the source. -/
def load_rules_config
    (json_parse yaml_parse : String → Option RulesConfig)
    (env : Option String) (file_content : Option String)
    (file_is_yaml : Bool) : RulesConfig :=
  let from_file : RulesConfig :=
    match file_content with
    | none => ⟨[]⟩
    | some content =>
      match (if file_is_yaml then yaml_parse content else json_parse content) with
      | some cfg => cfg
      | none => ⟨[]⟩
  match env with
  | none => from_file
  | some s =>
    if s = "" then from_file
    else
      match json_parse s with
      | some cfg => cfg
      | none =>
        match yaml_parse s with
        | some cfg => cfg
        | none => from_file

end Config

/-! ## Spec-side definitions (refinement targets, written from the spec's words,
never from the source) -/

/-- Modelled from the spec (§4.1): pattern matching where `*` is the *only*
wildcard, each `*` matching any substring, anchored to the full string;
every other character is literal. -/
def globCompile (s : List Char) : List RTok :=
  s.map fun c => if c = '*' then .anyStar else .lit c

/-- Modelled from the spec (§4.1): glob-style anchored match of a candidate
against a pattern whose only wildcard is `*`. -/
def globMatch (text pattern : String) : Bool :=
  rmatch (globCompile pattern.data) text.data

/-- The regex metacharacters that keep a special meaning after the source's
`pattern.replace("*", ".*")` translation (only `*` is rewritten; nothing is
escaped). -/
def regexMetachars : List Char :=
  ['.', '^', '$', '+', '?', '(', ')', '[', ']', '\x7b', '\x7d', '\\', '|']

/-- Modelled from the spec (§4.2): an action is kept iff it is `send_mail` or
at least one targeting field is *present and non-empty*. -/
def specKeepsAction (a : ActionSpec) : Bool :=
  a.type == some "send_mail"
  || (match a.target_projects with | some ps => !ps.isEmpty | none => false)
  || (match a.target_folders with | some fs => !fs.isEmpty | none => false)
  || (match a.target_organization with | some s => s ≠ "" | none => false)
  || (match a.target_labels with | some ls => !ls.isEmpty | none => false)

/-! ## Theorems -/

/-- C4: for every alert, if `budgetAmount > 0` the derived threshold percentage
is `round(costAmount/budgetAmount*100, 1)` (one decimal place, so ten times it
is an integer), and if `budgetAmount <= 0` it is `0`. -/
theorem c4_threshold_percent_derivation (bd : BudgetData) :
    (0 < bd.budgetAmount.getD 0 →
      RuleEngine.threshold_percent bd
        = pyRound1 (bd.costAmount.getD 0 / bd.budgetAmount.getD 0 * 100))
    ∧ (bd.budgetAmount.getD 0 ≤ 0 → RuleEngine.threshold_percent bd = 0)
    ∧ ∃ z : ℤ, RuleEngine.threshold_percent bd * 10 = z := by
  refine ⟨fun h => ?_, fun h => ?_, ?_⟩
  · simp only [RuleEngine.threshold_percent, if_pos h]
  · simp only [RuleEngine.threshold_percent, if_neg (not_lt.mpr h)]
  · simp only [RuleEngine.threshold_percent]
    split
    · exact ⟨roundHalfEven (bd.costAmount.getD 0 / bd.budgetAmount.getD 0 * 100 * 10),
        by rw [pyRound1]; field_simp⟩
    · exact ⟨0, by norm_num⟩

/-- Witness for C4 at concrete alerts: a positive budget uses the rounded
ratio, a zero budget yields `0`. -/
theorem c4_threshold_percent_derivation_witness :
    RuleEngine.threshold_percent ⟨some 75, some 100⟩ = pyRound1 (75 / 100 * 100)
    ∧ RuleEngine.threshold_percent ⟨some 75, some 0⟩ = 0 := by
  constructor
  · have h := (c4_threshold_percent_derivation ⟨some 75, some 100⟩).1 (by norm_num)
    simpa using h
  · exact (c4_threshold_percent_derivation ⟨some 75, some 0⟩).2.1 (by norm_num)

/-- C5: a threshold-condition list is a conjunction (the threshold step passes
iff every condition in the list holds); `min`/`max` are the inclusive bounds
`>=`/`<=` (with the spec's boundary cases evaluated); and a rule with no
threshold condition always passes the threshold step. -/
theorem c5_threshold_list_conjunction_min_max :
    (∀ (cs : List ThresholdCond) (t : ℚ),
      RuleEngine.threshold_ok (.listed cs) t = cs.all fun c => RuleEngine.cond_ok c t)
    ∧ (∀ (v t : ℚ),
      RuleEngine.cond_ok ⟨some "min", some v⟩ t = RuleEngine.cond_ok ⟨some ">=", some v⟩ t)
    ∧ (∀ (v t : ℚ),
      RuleEngine.cond_ok ⟨some "max", some v⟩ t = RuleEngine.cond_ok ⟨some "<=", some v⟩ t)
    ∧ RuleEngine.cond_ok ⟨some "min", some 80⟩ 80 = true
    ∧ RuleEngine.cond_ok ⟨some "min", some 80⟩ 85 = true
    ∧ RuleEngine.cond_ok ⟨some "min", some 80⟩ (795/10) = false
    ∧ RuleEngine.cond_ok ⟨some "max", some 90⟩ 90 = true
    ∧ RuleEngine.cond_ok ⟨some "max", some 90⟩ 85 = true
    ∧ RuleEngine.cond_ok ⟨some "max", some 90⟩ 95 = false
    ∧ ∀ t : ℚ, RuleEngine.threshold_ok .absent t = true := by
  refine ⟨fun cs t => ?_, fun v t => ?_, fun v t => ?_, ?_, ?_, ?_, ?_, ?_, ?_, fun t => ?_⟩
  · cases cs <;>
      simp [RuleEngine.threshold_ok, ThresholdSpec.truthy, ThresholdSpec.toConds]
  · simp [RuleEngine.cond_ok]
  · simp [RuleEngine.cond_ok]
  · decide
  · decide
  · norm_num [RuleEngine.cond_ok]
    decide
  · decide
  · decide
  · decide
  · simp [RuleEngine.threshold_ok, ThresholdSpec.truthy]

/-- C8 counterexample: a *single* threshold condition with both fields missing
(the empty dict) is falsy, so the threshold block is skipped entirely and the
rule passes at `thresholdPercent = 0` — whereas evaluating the condition with
the defaults `>=`/`100` (as the claim states) fails at `0`. -/
theorem c8_counterexample_empty_single_condition :
    RuleEngine.threshold_ok (.single ⟨none, none⟩) 0 = true
    ∧ RuleEngine.cond_ok ⟨none, none⟩ 0 = false := by
  constructor
  · decide
  · decide

/-- C8 (amended): a missing `operator` is evaluated as `">="` and a missing
`value` as `100`, never an error, for every condition the loop actually
evaluates; the one exception is a single condition with *both* fields missing,
which is falsy and skips the threshold step altogether (the step passes). -/
theorem c8_missing_field_defaults :
    (∀ (v : Option ℚ) (t : ℚ),
      RuleEngine.cond_ok ⟨none, v⟩ t = RuleEngine.cond_ok ⟨some ">=", v⟩ t)
    ∧ (∀ (o : Option String) (t : ℚ),
      RuleEngine.cond_ok ⟨o, none⟩ t = RuleEngine.cond_ok ⟨o, some 100⟩ t)
    ∧ (∀ (cs : List ThresholdCond) (t : ℚ),
      RuleEngine.threshold_ok (.listed cs) t
        = cs.all fun c =>
            RuleEngine.cond_ok ⟨some (c.operator.getD ">="), some (c.value.getD 100)⟩ t)
    ∧ ∀ t : ℚ, RuleEngine.threshold_ok (.single ⟨none, none⟩) t = true := by
  refine ⟨fun v t => rfl, fun o t => rfl, fun cs t => ?_, fun t => ?_⟩
  · cases cs <;> rfl
  · simp [RuleEngine.threshold_ok, ThresholdSpec.truthy, ThresholdCond.truthy]

/-- C10: a threshold condition whose `operator` string is none of the seven
recognised operators falls through every branch of the chain and is treated
as satisfied for every threshold percentage, so a mistyped operator silently
removes the constraint. -/
theorem c10_unknown_operator_always_passes (s : String) (v : Option ℚ) (t : ℚ)
    (h : s ∉ ([">=", ">", "==", "<", "<=", "min", "max"] : List String)) :
    RuleEngine.cond_ok ⟨some s, v⟩ t = true
    ∧ RuleEngine.threshold_ok (.single ⟨some s, v⟩) t = true := by
  simp only [List.mem_cons, List.mem_singleton, not_or] at h
  obtain ⟨h1, h2, h3, h4, h5, h6, h7, -⟩ := h
  have hc : RuleEngine.cond_ok ⟨some s, v⟩ t = true := by
    simp [RuleEngine.cond_ok, h1, h2, h3, h4, h5, h6, h7]
  refine ⟨hc, ?_⟩
  simp [RuleEngine.threshold_ok, ThresholdSpec.truthy, ThresholdCond.truthy,
    ThresholdSpec.toConds, hc]

/-- Witness for C10: the mistyped operator `"=>"` never fails a rule. -/
theorem c10_unknown_operator_always_passes_witness :
    RuleEngine.cond_ok ⟨some "=>", some 100⟩ 0 = true :=
  (c10_unknown_operator_always_passes "=>" (some 100) 0 (by decide)).1

/-- On a pattern free of the `.` metacharacter, the source's regex translation
and the spec's glob translation produce the same token list. -/
theorem compilePat_eq_globCompile_of_no_dot (s : List Char) (h : '.' ∉ s) :
    compilePat s = globCompile s := by
  induction s with
  | nil => rfl
  | cons c cs ih =>
    simp only [List.mem_cons, not_or] at h
    have hc : ¬c = '.' := fun hh => h.1 hh.symm
    simp only [compilePat, globCompile, List.map_cons] at *
    rw [ih h.2, if_neg hc]

/-- On a pattern with no `*`, the glob translation is all literals. -/
theorem globCompile_eq_map_lit_of_no_star (s : List Char) (h : '*' ∉ s) :
    globCompile s = s.map RTok.lit := by
  induction s with
  | nil => rfl
  | cons c cs ih =>
    simp only [List.mem_cons, not_or] at h
    have hc : ¬c = '*' := fun hh => h.1 hh.symm
    simp only [globCompile, List.map_cons] at *
    rw [ih h.2, if_neg hc]

/-- An all-literal token list matches exactly its own character list. -/
theorem rmatch_map_lit (l cs : List Char) :
    rmatch (l.map RTok.lit) cs = true ↔ l = cs := by
  induction l generalizing cs with
  | nil =>
    cases cs <;> simp [rmatch]
  | cons a l ih =>
    cases cs with
    | nil => simp [rmatch]
    | cons c cs' => simp [rmatch, ih]

/-- C3 counterexample: the claim fails as stated.  The pattern `"a.c"`
contains no `*`, yet the code's matcher accepts the different string `"abc"`
(the unescaped `.` keeps its regex meaning), while the glob semantics the
claim describes rejects it. -/
theorem c3_counterexample_dot_metacharacter :
    RuleEngine.matches_pattern "abc" "a.c" = true
    ∧ ("abc" : String) ≠ "a.c"
    ∧ '*' ∉ "a.c".data
    ∧ globMatch "abc" "a.c" = false := by
  refine ⟨by decide, by decide, by decide, by decide⟩

/-- C3 (amended): for patterns free of regex metacharacters other than `*`,
the code's matcher has exactly the claimed glob semantics — `*` is the only
wildcard, matching is anchored to the full string, and with no `*` present
only the exact string matches.  (Patterns containing other regex
metacharacters, e.g. `.`, keep those characters' regex meaning instead.) -/
theorem c3_pattern_match_glob_semantics (pattern text : String)
    (hm : ∀ c ∈ pattern.data, c ∉ regexMetachars) :
    RuleEngine.matches_pattern text pattern = globMatch text pattern
    ∧ ('*' ∉ pattern.data →
        (RuleEngine.matches_pattern text pattern = true ↔ text = pattern)) := by
  have hdot : '.' ∉ pattern.data := fun hc => hm '.' hc (by decide)
  have hcomp : compilePat pattern.data = globCompile pattern.data :=
    compilePat_eq_globCompile_of_no_dot pattern.data hdot
  constructor
  · unfold RuleEngine.matches_pattern globMatch
    rw [hcomp]
  · intro hstar
    unfold RuleEngine.matches_pattern
    rw [hcomp, globCompile_eq_map_lit_of_no_star pattern.data hstar, rmatch_map_lit]
    constructor
    · intro h
      exact String.ext h.symm
    · intro h
      rw [h]

/-- Witness for C3 (amended) at the spec's own example pattern, and at a
wildcard-free pattern. -/
theorem c3_pattern_match_glob_semantics_witness :
    (RuleEngine.matches_pattern "dev-test-123" "dev-*"
      = globMatch "dev-test-123" "dev-*")
    ∧ (RuleEngine.matches_pattern "prod" "prod" = true ↔ ("prod" : String) = "prod") :=
  ⟨(c3_pattern_match_glob_semantics "dev-*" "dev-test-123" (by decide)).1,
   (c3_pattern_match_glob_semantics "prod" "prod" (by decide)).2 (by decide)⟩

/-- C1: the resolution for label targeting keeps exactly the candidates from
the discovery query (which may be an OR-semantics superset) whose label map
contains every requested key with a string-equal value; a candidate missing a
key or carrying a different value is excluded.  The kept candidates are
emitted in query order as `(project_id, display_name)` records. -/
theorem c1_label_intersection (label_filters : List (String × String))
    (api_results : List DiscoveredProject) :
    ProjectDiscovery.find_projects_by_labels label_filters api_results
      = (api_results.filter (ProjectDiscovery.all_labels_match label_filters)).map
          ProjectDiscovery.extract_project
    ∧ ∀ p : DiscoveredProject,
        ProjectDiscovery.all_labels_match label_filters p = true
          ↔ ∀ k v, (k, v) ∈ label_filters → p.labels.lookup k = some v := by
  constructor
  · induction api_results with
    | nil => rfl
    | cons p rest ih =>
      rw [ProjectDiscovery.find_projects_by_labels, List.filter_cons]
      rcases hp : ProjectDiscovery.all_labels_match label_filters p with _ | _
      · simpa [hp] using ih
      · simpa [hp] using ih
  · intro p
    unfold ProjectDiscovery.all_labels_match
    rw [List.all_eq_true]
    constructor
    · intro h k v hkv
      have := h (k, v) hkv
      exact eq_of_beq this
    · intro h kv hkv
      have := h kv.1 kv.2 hkv
      simp [this]

/-- C2 counterexample: the claim fails as stated.  An action whose only
targeting field is the *empty* list `target_projects: []` is kept by
`_get_rule_actions` (the code tests key presence, not non-emptiness), while
the claim's "present and non-empty" reading would drop it. -/
theorem c2_counterexample_empty_target_list :
    RuleEngine.get_rule_actions
        ⟨none, ⟨.absent, .absent, .absent⟩,
          [⟨some "log_only", some [], none, none, none⟩]⟩
      = [⟨some "log_only", some [], none, none, none⟩]
    ∧ specKeepsAction ⟨some "log_only", some [], none, none, none⟩ = false := by
  refine ⟨by decide, by decide⟩

/-- C2 (amended): for every rule, the extracted action list keeps, in order,
exactly the `send_mail` actions (unconditionally) and the actions with at
least one targeting key *present* — present with any value, even an empty
list or map; an action with no targeting key is dropped and processing of the
rule's remaining actions continues (the result is a filter of the whole
list). -/
theorem c2_action_extraction_presence_filter (rule : Rule) :
    RuleEngine.get_rule_actions rule
      = rule.actions.filter
          fun a => a.type == some "send_mail" || RuleEngine.has_targets a := by
  unfold RuleEngine.get_rule_actions
  induction rule.actions with
  | nil => rfl
  | cons a rest ih =>
    rw [RuleEngine.get_rule_actions_loop, List.filter_cons]
    rcases h1 : (a.type == some "send_mail") with _ | _
    · rcases h2 : RuleEngine.has_targets a with _ | _
      · simpa [h1, h2] using ih
      · simpa [h1, h2] using ih
    · simpa [h1] using ih

/-- The accumulator form of the evaluation loop: folding the conditional
extend over the rules appends, after the accumulator, the concatenation of
the extracted action lists of the matching rules. -/
theorem evaluate_foldl_eq_append_join (p : Rule → Bool) (rules : List Rule)
    (acc : List ActionSpec) :
    rules.foldl
        (fun actions rule =>
          if p rule then actions ++ RuleEngine.get_rule_actions rule else actions)
        acc
      = acc ++ ((rules.filter p).map RuleEngine.get_rule_actions).flatten := by
  induction rules generalizing acc with
  | nil => simp
  | cons r rest ih =>
    rw [List.foldl_cons, List.filter_cons]
    rcases h : p r with _ | _
    · simp [h, ih]
    · simp [h, ih]

/-- C6: `RuleEngine.evaluate` returns exactly the concatenation, in
rule-declaration order, of the extracted action lists of the matching rules,
with no deduplication — two always-matching copies of the same rule each
contribute their action, so an equal action occurs twice (count 2). -/
theorem c6_evaluate_is_ordered_concatenation :
    (∀ (rules : List Rule) (budget_data : BudgetData) (attributes : PubSubAttrs),
      RuleEngine.evaluate rules budget_data attributes
        = ((rules.filter fun r =>
              RuleEngine.matches_rule r (RuleEngine.threshold_percent budget_data)
                (attributes.billingAccountId.getD "unknown")
                (attributes.budgetId.getD "unknown")).map
            RuleEngine.get_rule_actions).flatten)
    ∧ RuleEngine.evaluate
          [⟨some "r1", ⟨.absent, .absent, .absent⟩,
             [⟨some "restrict_services", some ["p"], none, none, none⟩]⟩,
           ⟨some "r2", ⟨.absent, .absent, .absent⟩,
             [⟨some "restrict_services", some ["p"], none, none, none⟩]⟩]
          ⟨none, none⟩ ⟨none, none⟩
        = [⟨some "restrict_services", some ["p"], none, none, none⟩,
           ⟨some "restrict_services", some ["p"], none, none, none⟩]
    ∧ (RuleEngine.evaluate
          [⟨some "r1", ⟨.absent, .absent, .absent⟩,
             [⟨some "restrict_services", some ["p"], none, none, none⟩]⟩,
           ⟨some "r2", ⟨.absent, .absent, .absent⟩,
             [⟨some "restrict_services", some ["p"], none, none, none⟩]⟩]
          ⟨none, none⟩ ⟨none, none⟩).count
        ⟨some "restrict_services", some ["p"], none, none, none⟩ = 2 := by
  refine ⟨fun rules budget_data attributes => ?_, by decide, by decide⟩
  unfold RuleEngine.evaluate
  exact evaluate_foldl_eq_append_join _ rules []

/-- C7: target resolution honors all four targeting methods of one action
simultaneously, concatenating their results in the fixed order — explicit
projects, explicit folders, organization, label-discovered projects — with no
deduplication across methods: a project reachable both explicitly and through
labels appears twice (count 2). -/
theorem c7_target_resolution_concatenation :
    (∀ (discover : List (String × String) → String → List (String × Option String))
       (action : ActionSpec) (organization_id : String),
      Handler.resolve_action_targets discover action organization_id
        = Handler.project_targets action
          ++ Handler.folder_targets action
          ++ Handler.organization_targets action
          ++ Handler.label_targets discover action organization_id)
    ∧ (Handler.resolve_action_targets (fun _ _ => [("p", some "Proj P")])
          ⟨some "restrict_services", some ["p"], none, none, some [("env", "prod")]⟩
          "org-1").countP (fun tgt => tgt.1 == "p") = 2 := by
  refine ⟨fun discover action organization_id => ?_, by decide⟩
  simp [Handler.resolve_action_targets, Handler.project_targets,
    Handler.folder_targets, Handler.organization_targets, Handler.label_targets]

/-- C9: when every configuration source in play fails to parse (the
environment string, if set, is neither valid JSON nor valid YAML; the config
file, if found, fails its extension's parser), loading returns the empty rule
set — a total fallback, never an exception — and evaluation over the loaded
configuration produces no actions for any alert. -/
theorem c9_invalid_config_yields_empty_rules
    (json_parse yaml_parse : String → Option RulesConfig)
    (env file_content : Option String) (file_is_yaml : Bool)
    (henv : ∀ s, env = some s → json_parse s = none ∧ yaml_parse s = none)
    (hfile : ∀ c, file_content = some c →
      (if file_is_yaml then yaml_parse c else json_parse c) = none) :
    Config.load_rules_config json_parse yaml_parse env file_content file_is_yaml
      = ⟨[]⟩
    ∧ ∀ (budget_data : BudgetData) (attributes : PubSubAttrs),
        RuleEngine.evaluate
          (Config.load_rules_config json_parse yaml_parse env file_content
            file_is_yaml).rules budget_data attributes = [] := by
  have hload :
      Config.load_rules_config json_parse yaml_parse env file_content file_is_yaml
        = ⟨[]⟩ := by
    unfold Config.load_rules_config
    cases env with
    | none =>
      cases file_content with
      | none => rfl
      | some content =>
        simp only [hfile content rfl]
    | some s =>
      have hj := (henv s rfl).1
      have hy := (henv s rfl).2
      by_cases hs : s = ""
      · simp only [if_pos hs]
        cases file_content with
        | none => rfl
        | some content =>
          simp only [hfile content rfl]
      · simp only [if_neg hs, hj, hy]
        cases file_content with
        | none => rfl
        | some content =>
          simp only [hfile content rfl]
  refine ⟨hload, fun budget_data attributes => ?_⟩
  rw [hload]
  rfl

/-- Witness for C9: stub parsers that reject everything, an unparsable
environment string and an unparsable JSON config file produce the empty rule
set. -/
theorem c9_invalid_config_yields_empty_rules_witness :
    Config.load_rules_config (fun _ => none) (fun _ => none)
        (some "this is not a config") (some "neither is this") false = ⟨[]⟩ :=
  (c9_invalid_config_yields_empty_rules (fun _ => none) (fun _ => none)
    (some "this is not a config") (some "neither is this") false
    (fun _ _ => ⟨rfl, rfl⟩) (fun _ _ => rfl)).1
